import Mathlib

/-!
A shallow embedding of the LRO convergence engine of `azvm_manager`
(`src/azvm_manager/src/main.rs`, `src/azvm_manager/src/vm_client.rs`,
`src/azvm_manager/src/error.rs`), together with theorems settling the
claims about it.

The embedding models:
  * the error enumeration `AppError` (error.rs);
  * the operation-status enumeration `operation_status::Status` used by
    `process_recovery_cmd`;
  * header lookup, operation-handle location, operation-id extraction and
    retry-interval derivation (main.rs lines 536-552 and 654-668);
  * the LRO poll loop of `process_recovery_cmd` (main.rs lines 671-724);
  * the per-item batch registration loop (main.rs lines 621-726);
  * `VmClient::is_complete` (vm_client.rs lines 37-57) and the batch VM
    start/stop convergence loop of `send_vm_command` (main.rs lines 334-388);
  * the composite naming of backup registration (main.rs lines 588-589, 622).
-/

namespace AzvmManager

/-- Rust `Result`, kept as a dedicated type so equality is decidable. -/
inductive Res (ε : Type) (α : Type) where
  | ok (value : α)
  | err (e : ε)
deriving DecidableEq

/-- `AppError` from `src/azvm_manager/src/error.rs`.  The `url::ParseError`
payload of `UrlParseError` is not modelled (it is never inspected). -/
inductive AppError where
  | NoSub
  | NoRg
  | NoVault
  | MissingLocationHeader
  | UrlParseError
deriving DecidableEq

/-- `operation_status::Status` from `azure_mgmt_recoveryservicesbackup`,
as matched by `process_recovery_cmd` (main.rs lines 684-723). -/
inductive OpStatus where
  | Succeeded
  | Failed
  | InProgress
  | Invalid
  | Canceled
  | UnknownValue (value : String)
deriving DecidableEq

instance : Inhabited OpStatus := ⟨OpStatus.Invalid⟩

/-- A single status-query result: `status.status : Option<Status>`
(main.rs line 684).  `none` models an absent status field. -/
abbrev QueryResult := Option OpStatus

/-- The statuses on which the poll loop at main.rs lines 671-724 `break`s:
`Succeeded`, `Failed`, `Invalid`, `Canceled` and `UnknownValue` break;
`InProgress` and `None` `continue`. -/
def isTerminalResult : QueryResult → Bool
  | none => false
  | some OpStatus.InProgress => false
  | some _ => true

/-- Observable events of one poll loop: each iteration first sleeps
(`sleep_until(Instant::now() + retry_secs)`, main.rs line 672) and then
issues one status query (main.rs lines 674-682). -/
inductive PollEvent where
  | sleep (secs : Nat)
  | query (r : QueryResult)
deriving DecidableEq

/-- The poll loop of main.rs lines 671-724, driven by the (finite prefix of
the) sequence of status-query results.  Each iteration sleeps for the fixed
`interval`, consumes the next query result, breaks on a terminal result and
otherwise loops.  Returns the trace of events together with the terminal
result (`none` when the supplied sequence ran out before a terminal result,
i.e. the real loop would still be running). -/
def pollLoop (interval : Nat) : List QueryResult → List PollEvent × QueryResult
  | [] => ([], none)
  | r :: rs =>
    if isTerminalResult r then
      ([PollEvent.sleep interval, PollEvent.query r], r)
    else
      let rest := pollLoop interval rs
      (PollEvent.sleep interval :: PollEvent.query r :: rest.1, rest.2)

/-- The first terminal result of a query sequence, i.e. the status with
which the poll loop of main.rs lines 671-724 finishes. -/
def firstTerminal : List QueryResult → QueryResult
  | [] => none
  | r :: rs => if isTerminalResult r then r else firstTerminal rs

end AzvmManager

namespace AzvmManager

/-! ### Strings: substring containment, integer parsing, header lookup -/

/-- `List.isPrefixOf` on characters, written out with decidable equality
(models the character-wise prefix test underlying Rust `str::contains`). -/
def charsStart : List Char → List Char → Bool
  | [], _ => true
  | _ :: _, [] => false
  | a :: as, b :: bs => a == b && charsStart as bs

/-- Does `pat` occur as a contiguous run inside the second list?  Models
Rust `str::contains` on the underlying characters. -/
def charsSubstr (pat : List Char) : List Char → Bool
  | [] => pat.isEmpty
  | c :: cs => charsStart pat (c :: cs) || charsSubstr pat cs

/-- Rust `str::contains(pat)`: substring containment. -/
def strContains (s pat : String) : Bool := charsSubstr pat.data s.data

/-- Decimal digit accumulation for `parseU64`. -/
def digitsToNat : List Char → Nat → Option Nat
  | [], acc => some acc
  | c :: cs, acc =>
    if c.isDigit then digitsToNat cs (acc * 10 + (c.toNat - 48)) else none

/-- Rust `str::parse::<u64>()`: decimal digits (with an optional leading
`+`), rejecting an empty string, any other character, and values outside
the `u64` range. -/
def parseU64 (s : String) : Option Nat :=
  let t := match s.data with
    | '+' :: rest => rest
    | cs => cs
  match t with
  | [] => none
  | _ =>
    match digitsToNat t 0 with
    | some n => if n < 18446744073709551616 then some n else none
    | none => none

/-- ASCII lower-casing of one character (header names are ASCII). -/
def lowerChar (c : Char) : Char :=
  if 'A' ≤ c && c ≤ 'Z' then Char.ofNat (c.toNat + 32) else c

/-- ASCII lower-casing of a string. -/
def lowerString (s : String) : String := ⟨s.data.map lowerChar⟩

/-- A response header map: ordered (name, value) pairs. -/
abbrev Headers := List (String × String)

/-- Case-insensitive header lookup, as done both by `azure_core`'s
`get_optional_str` (main.rs lines 536-551) and by `reqwest`'s
`HeaderMap::get` (main.rs lines 654-667); the queried names below are the
lowercase literals from the source. -/
def headerLookup (hs : Headers) (name : String) : Option String :=
  (hs.find? (fun p => lowerString p.1 == name)).map (·.2)

/-! ### URL parsing (model of the `url` crate for special-scheme URLs) -/

/-- The parts of a parsed URL that the engine reads.  `pathSegments` models
`Url::path_segments()` for URLs that can be a base: the `/`-separated
segments of the path (`https://x` has path `/`, i.e. segments `[""]`). -/
structure Url where
  scheme : String
  host : String
  pathSegments : List String
deriving DecidableEq

/-- Split a character list at the first `:`, returning the parts before
and after it. -/
def takeUntilColon : List Char → Option (List Char × List Char)
  | [] => none
  | c :: cs =>
    if c = ':' then some ([], cs)
    else
      match takeUntilColon cs with
      | none => none
      | some (pre, post) => some (c :: pre, post)

/-- Split a character list on `/`, keeping empty parts (so
`"x/ops/"` yields `["x", "ops", ""]`). -/
def splitOnSlash : List Char → List (List Char)
  | [] => [[]]
  | c :: cs =>
    if c = '/' then [] :: splitOnSlash cs
    else
      match splitOnSlash cs with
      | [] => [[c]]
      | x :: xs => (c :: x) :: xs

/-- Model of `Url::parse` for the `scheme://host/path` URLs the engine
handles: a nonempty alphabetic scheme, `://`, a nonempty host, then the
path split on `/` into segments, an absent path giving the single empty
segment (the `url` crate normalises the path of `https://x` to `/`).
Non-special URL forms (no `//` after the scheme) are out of the model. -/
def parseUrl (s : String) : Option Url :=
  match takeUntilColon s.data with
  | none => none
  | some (schemeChars, rest) =>
    if schemeChars.isEmpty || !schemeChars.all Char.isAlpha then none
    else
      match rest with
      | '/' :: '/' :: tail =>
        match splitOnSlash tail with
        | [] => none
        | host :: segs =>
          if host.isEmpty then none
          else
            some ⟨⟨schemeChars⟩, ⟨host⟩,
              if segs.isEmpty then [""] else segs.map (fun cs => ⟨cs⟩)⟩
      | _ => none

/-! ### Operation-handle location (main.rs lines 536-552 and 654-668) -/

/-- Handle location, shared verbatim by the vault-refresh path
(main.rs lines 536-540) and the per-item registration path (lines 654-658):
prefer the `azure-asyncoperation` header, fall back to `location`, fail
with `MissingLocationHeader` when neither is present, and fail with
`UrlParseError` when the chosen value does not parse as a URL. -/
def locate (hs : Headers) : Res AppError Url :=
  match (headerLookup hs "azure-asyncoperation").orElse
      (fun _ => headerLookup hs "location") with
  | none => Res.err AppError.MissingLocationHeader
  | some v =>
    match parseUrl v with
    | none => Res.err AppError.UrlParseError
    | some u => Res.ok u

/-- Operation-id extraction (main.rs lines 542-546 and 660-664):
`location.path_segments().expect(..).last().unwrap()` — the final path
segment of the located URL.  `none` models the `unwrap` panic on an empty
segment iterator (unreachable for URLs produced by `parseUrl`). -/
def operationIdOf (u : Url) : Option String := u.pathSegments.getLast?

/-- Retry interval of the vault-refresh path (main.rs lines 548-552):
`get_optional_str("retry-after").unwrap_or("60").parse().map_or_else(|_| 60, id)`
— absent or unparseable values fall back to 60 seconds. -/
def retrySecsVaultRefresh (hs : Headers) : Nat :=
  (parseU64 ((headerLookup hs "retry-after").getD "60")).getD 60

/-- Retry interval of the per-item registration path (main.rs lines
666-668): absent falls back to 60 seconds, but a present value goes
through `value.to_str().unwrap().parse().unwrap()` — `none` models the
`unwrap` panic when the value does not parse. -/
def retrySecsBatch (hs : Headers) : Option Nat :=
  match headerLookup hs "retry-after" with
  | none => some 60
  | some v => parseU64 v

/-! ### Composite naming (main.rs lines 588-589 and 622) -/

/-- `format!("iaasvmcontainer;iaasvmcontainerv2;{group_name};{name}")`
(main.rs line 588). -/
def container_name (group_name name : String) : String :=
  "iaasvmcontainer;iaasvmcontainerv2;" ++ group_name ++ ";" ++ name

/-- `format!("vm;iaasvmcontainerv2;{group_name};{name}")` (main.rs line 589). -/
def protected_item_name (group_name name : String) : String :=
  "vm;iaasvmcontainerv2;" ++ group_name ++ ";" ++ name

/-- The default-policy id `format!` of main.rs line 622. -/
def policy_id (subscription_id vault_group vault_name : String) : String :=
  "/subscriptions/" ++ subscription_id ++ "/resourceGroups/" ++ vault_group ++
    "/providers/microsoft.recoveryservices/vaults/" ++ vault_name ++
    "/backupPolicies/DefaultPolicy"

/-! ### VM instance view and `VmClient::is_complete` (vm_client.rs 37-57) -/

/-- The fields of `InstanceViewStatus` that `is_complete` reads. -/
structure InstanceViewStatus where
  code : Option String
  display_status : Option String
deriving DecidableEq

/-- The field of `VirtualMachineInstanceView` that `is_complete` reads. -/
structure VirtualMachineInstanceView where
  statuses : List InstanceViewStatus
deriving DecidableEq

/-- The filter of vm_client.rs line 47: status entries whose `code`
contains `"PowerState"`. -/
def powerStateEntries (v : VirtualMachineInstanceView) : List InstanceViewStatus :=
  v.statuses.filter (fun s =>
    match s.code with
    | some c => strContains c "PowerState"
    | none => false)

/-- The status string computed at vm_client.rs lines 46-50: the
`display_status` of the first power-state entry, with `"Unknown"`
substituted for a missing entry or a missing `display_status`. -/
def powerStatus (v : VirtualMachineInstanceView) : String :=
  (((powerStateEntries v).map
      (fun s => s.display_status.getD "Unknown")).head?).getD "Unknown"

/-- One round of status queries is modelled by a function giving each VM
name its instance view for that round. -/
abbrev RoundOracle := String → VirtualMachineInstanceView

/-- The per-VM test of vm_client.rs line 52: `status.contains(state)`. -/
def isDone (σ : RoundOracle) (state : String) (n : String) : Bool :=
  strContains (powerStatus (σ n)) state

/-- `VmClient::is_complete` (vm_client.rs lines 37-57): the sub-list of
the queried names whose power status contains the target state, in query
order. -/
def is_complete (σ : RoundOracle) (vm_names : List String) (state : String) :
    List String :=
  vm_names.filter (isDone σ state)

/-- The target state chosen at main.rs lines 345-348. -/
inductive VmCommand where
  | Start
  | Stop
deriving DecidableEq

/-- main.rs lines 345-348: `"VM running"` for start, `"VM deallocated"`
for stop. -/
def targetState : VmCommand → String
  | VmCommand.Start => "VM running"
  | VmCommand.Stop => "VM deallocated"

/-- `completed` and the mutable `vm_names` of `send_vm_command`
(main.rs lines 342-343, 356-377). -/
structure ConvergenceState where
  completed : Nat
  remaining : List String
deriving DecidableEq

/-- `vm_names.iter().position(|n| n == name)` followed by
`vm_names.remove(pos)` (main.rs lines 368-369): remove the first
occurrence, if any. -/
def removeFirst : List String → String → List String
  | [], _ => []
  | x :: xs, name => if x = name then xs else x :: removeFirst xs name

/-- The removal loop of main.rs lines 367-371: erase the first occurrence
of each done name in turn. -/
def removeAll (l : List String) (done : List String) : List String :=
  done.foldl removeFirst l

/-- One iteration of the convergence loop of main.rs lines 356-377:
query every remaining VM, add the done count to `completed`, and remove
each done name from the remaining list. -/
def roundStep (σ : RoundOracle) (state : String) (s : ConvergenceState) :
    ConvergenceState :=
  let done := is_complete σ s.remaining state
  { completed := s.completed + done.length
  , remaining := removeAll s.remaining done }

/-- Iterating the convergence loop over one round-oracle per round. -/
def runRounds (state : String) (σs : List RoundOracle) (s : ConvergenceState) :
    ConvergenceState :=
  σs.foldl (fun s σ => roundStep σ state s) s

/-! ### The batch registration loop (main.rs lines 621-726) -/

/-- The submission of one item (the `PUT` at main.rs lines 646-650):
either a transport error (the `?` at line 650) or a response carrying a
header map. -/
inductive SubmitResult where
  | transportErr
  | response (headers : Headers)
deriving DecidableEq

/-- One item of the batch of main.rs line 621, together with the
behaviour of the external collaborators for it: the submission result and
the sequence of poll-query results its operation would yield. -/
structure BatchItem where
  name : String
  submit : SubmitResult
  polls : List QueryResult
deriving DecidableEq

/-- A recorded per-item terminal result: the item's name together with
the status on which its poll loop broke (surfaced by the source through
the success counter and the per-status `println!`s at main.rs
lines 698-720). -/
structure RegistrationOutcome where
  name : String
  status : OpStatus
deriving DecidableEq

/-- Batch-fatal errors: a transport error (a `?` on the submission) or an
`AppError` from handle location. -/
inductive BatchError where
  | transport
  | app (e : AppError)
deriving DecidableEq

/-- Result of running the whole batch loop of main.rs lines 621-726.
`aborted` models an `Err` return from `process_recovery_cmd` part-way
through the loop; `panicked` models the `unwrap` panic of the
retry-after parse at line 668; `diverged` models an item whose poll
sequence never produces a terminal status (the inner loop never breaks).
Each carries the outcomes recorded and the success count reached so far. -/
inductive BatchOutcome where
  | done (outcomes : List RegistrationOutcome) (count : Nat)
  | aborted (outcomes : List RegistrationOutcome) (count : Nat) (e : BatchError)
  | panicked (outcomes : List RegistrationOutcome) (count : Nat)
  | diverged (outcomes : List RegistrationOutcome) (count : Nat)
deriving DecidableEq

/-- Terminal status reached by an item's poll loop, if any. -/
def itemTerminal (it : BatchItem) : QueryResult := firstTerminal it.polls

/-- Does the batch loop's `Succeeded` arm fire (main.rs line 685)? -/
def statusIsSucceeded : OpStatus → Bool
  | OpStatus.Succeeded => true
  | _ => false

/-- The `for` loop of main.rs lines 621-726 over the remaining items,
carrying the outcomes recorded so far and the success count `count`:
submit (propagating transport errors), locate the handle (propagating
`AppError`s), derive the retry interval (panicking on an unparseable
`retry-after`), then poll to a terminal status, record it, bump `count`
on `Succeeded`, and continue with the next item. -/
def runBatchAux : List BatchItem → List RegistrationOutcome → Nat → BatchOutcome
  | [], outs, count => BatchOutcome.done outs count
  | it :: rest, outs, count =>
    match it.submit with
    | SubmitResult.transportErr => BatchOutcome.aborted outs count BatchError.transport
    | SubmitResult.response hs =>
      match locate hs with
      | Res.err e => BatchOutcome.aborted outs count (BatchError.app e)
      | Res.ok _u =>
        match retrySecsBatch hs with
        | none => BatchOutcome.panicked outs count
        | some _secs =>
          match itemTerminal it with
          | none => BatchOutcome.diverged outs count
          | some st =>
            runBatchAux rest (outs ++ [⟨it.name, st⟩])
              (if statusIsSucceeded st then count + 1 else count)

/-- The whole batch loop, started with no outcomes and `count = 0`
(main.rs line 599). -/
def runBatch (items : List BatchItem) : BatchOutcome :=
  runBatchAux items [] 0

/-- An item whose submission succeeds with a locatable handle, a
parseable retry interval and a terminating poll sequence: the items the
loop records an outcome for and moves past. -/
def goodItem (it : BatchItem) : Bool :=
  match it.submit with
  | SubmitResult.transportErr => false
  | SubmitResult.response hs =>
    (match locate hs with
     | Res.ok _ => true
     | Res.err _ => false) &&
    (retrySecsBatch hs).isSome && (itemTerminal it).isSome

/-- The outcome recorded for a good item (the terminal status of its poll
sequence; the default is never reached for good items). -/
def outcomeOf (it : BatchItem) : RegistrationOutcome :=
  ⟨it.name, (itemTerminal it).getD OpStatus.Invalid⟩

/-- The number of items of the batch whose poll loop broke on
`Succeeded`, i.e. the final success count. -/
def countSucc (items : List BatchItem) : Nat :=
  items.countP (fun it => ((itemTerminal it).map statusIsSucceeded).getD false)

/-- The batch-fatal error an item's submission produces, if any
(transport error, missing location header, or URL parse error). -/
def submitError (it : BatchItem) : Option BatchError :=
  match it.submit with
  | SubmitResult.transportErr => some BatchError.transport
  | SubmitResult.response hs =>
    match locate hs with
    | Res.err e => some (BatchError.app e)
    | Res.ok _ => none

end AzvmManager

namespace AzvmManager

/-- The result of parsing the chosen header value, as `locate` maps it. -/
def urlResult (v : String) : Res AppError Url :=
  match parseUrl v with
  | none => Res.err AppError.UrlParseError
  | some u => Res.ok u

/-- C5: for every response header map, operation-handle location uses the
`azure-asyncoperation` header when present (preferring it over `location`
even when both are present), falls back to `location` otherwise, and fails
with the missing-handle error when neither is present; a present chosen
header whose value is not a well-formed URL fails with the URL-parse
error. -/
theorem claimC5 (hs : Headers) :
    (∀ v, headerLookup hs "azure-asyncoperation" = some v →
      locate hs = urlResult v) ∧
    (headerLookup hs "azure-asyncoperation" = none →
      ∀ v, headerLookup hs "location" = some v → locate hs = urlResult v) ∧
    (headerLookup hs "azure-asyncoperation" = none →
      headerLookup hs "location" = none →
      locate hs = Res.err AppError.MissingLocationHeader) ∧
    (∀ v, headerLookup hs "azure-asyncoperation" = some v →
      parseUrl v = none → locate hs = Res.err AppError.UrlParseError) := by
  refine ⟨?_, ?_, ?_, ?_⟩
  · intro v hv
    simp [locate, hv, Option.orElse, urlResult]
  · intro h1 v hv
    simp [locate, h1, hv, Option.orElse, urlResult]
  · intro h1 h2
    simp [locate, h1, h2, Option.orElse]
  · intro v hv hp
    simp [locate, hv, Option.orElse, hp]

/-- Witness for C5 at a header map carrying both headers: the
`azure-asyncoperation` URL wins. -/
theorem claimC5_witness :
    headerLookup [("azure-asyncoperation", "https://a/b"), ("location", "https://c/d")]
        "azure-asyncoperation" = some "https://a/b" ∧
    headerLookup [("azure-asyncoperation", "https://a/b"), ("location", "https://c/d")]
        "location" = some "https://c/d" ∧
    locate [("azure-asyncoperation", "https://a/b"), ("location", "https://c/d")] =
      Res.ok ⟨"https", "a", ["b"]⟩ :=
  ⟨rfl, rfl,
    (claimC5 [("azure-asyncoperation", "https://a/b"), ("location", "https://c/d")]).1
      "https://a/b" rfl⟩

end AzvmManager

namespace AzvmManager

/-- C6 counterexample: a located handle URL whose final path segment is
empty (`"https://x/ops/"`) is not rejected — location succeeds and the
extracted operation id is the empty string, which the code goes on to use;
no `InvalidOperationHandle` error exists in `error.rs`. -/
theorem claimC6_counterexample :
    locate [("location", "https://x/ops/")] =
      Res.ok ⟨"https", "x", ["ops", ""]⟩ ∧
    operationIdOf ⟨"https", "x", ["ops", ""]⟩ = some "" := by
  exact ⟨rfl, rfl⟩

/-- C6 (amended): for every located handle URL, the operation identifier
is exactly the final `/`-delimited path segment; for any URL produced by
parsing, that segment always exists (possibly empty) and is used as-is —
there is no emptiness validation. -/
theorem claimC6_amended (s : String) (u : Url) (h : parseUrl s = some u) :
    ∃ seg segs0, u.pathSegments = segs0 ++ [seg] ∧ operationIdOf u = some seg := by
  have hne : u.pathSegments ≠ [] := by
    unfold parseUrl at h
    split at h
    · exact absurd h (by simp)
    · split at h
      · exact absurd h (by simp)
      · split at h
        · split at h
          · exact absurd h (by simp)
          · split at h
            · exact absurd h (by simp)
            · rename_i host segs hsplit hhost
              injection h with h
              subst h
              rcases segs with _ | ⟨s0, segs⟩
              · simp
              · simp
        · exact absurd h (by simp)
  refine ⟨u.pathSegments.getLast hne, u.pathSegments.dropLast, ?_, ?_⟩
  · exact (List.dropLast_append_getLast hne).symm
  · simp [operationIdOf, List.getLast?_eq_getLast _ hne]

/-- Witness for C6 (amended) at the spec's example URL
`"https://x/operationResults/abc123"`: the extracted id is `"abc123"`. -/
theorem claimC6_amended_witness :
    parseUrl "https://x/operationResults/abc123" =
      some ⟨"https", "x", ["operationResults", "abc123"]⟩ ∧
    operationIdOf ⟨"https", "x", ["operationResults", "abc123"]⟩ = some "abc123" ∧
    (∃ seg segs0,
      (⟨"https", "x", ["operationResults", "abc123"]⟩ : Url).pathSegments =
        segs0 ++ [seg] ∧
      operationIdOf ⟨"https", "x", ["operationResults", "abc123"]⟩ = some seg) :=
  ⟨rfl, rfl, claimC6_amended "https://x/operationResults/abc123" _ rfl⟩

end AzvmManager

namespace AzvmManager

/-- C7 counterexample: at the batch-registration site (main.rs lines
666-668) a present `retry-after` value that does not parse does not fall
back to 60 seconds — the `unwrap` panics (modelled as `none`). -/
theorem claimC7_counterexample :
    retrySecsBatch [("retry-after", "soon")] = none ∧
    retrySecsBatch [("retry-after", "soon")] ≠ some 60 := by
  exact ⟨rfl, by decide⟩

/-- C7 (amended): the poll interval is the `retry-after` value in seconds
when present and parseable as a non-negative integer, at both sites; when
the header is absent, both sites default to 60 seconds; when the value
does not parse, the vault-refresh site (main.rs 548-552) defaults to 60
seconds but the batch-registration site (main.rs 666-668) panics. -/
theorem claimC7_amended (hs : Headers) :
    (headerLookup hs "retry-after" = none →
      retrySecsVaultRefresh hs = 60 ∧ retrySecsBatch hs = some 60) ∧
    (∀ v, headerLookup hs "retry-after" = some v →
      retrySecsVaultRefresh hs = (parseU64 v).getD 60 ∧
      retrySecsBatch hs = parseU64 v) := by
  constructor
  · intro h
    refine ⟨?_, ?_⟩
    · simp [retrySecsVaultRefresh, h]
      rfl
    · simp [retrySecsBatch, h]
  · intro v h
    refine ⟨?_, ?_⟩
    · simp [retrySecsVaultRefresh, h]
    · simp [retrySecsBatch, h]

/-- Witness for C7 (amended), covering the spec's round-trip example: a
handle built from `location: https://x/ops/42` with no `retry-after`
falls back to the 60-second default at both sites. -/
theorem claimC7_amended_witness :
    retrySecsVaultRefresh [("location", "https://x/ops/42")] = 60 ∧
    retrySecsBatch [("location", "https://x/ops/42")] = some 60 :=
  (claimC7_amended [("location", "https://x/ops/42")]).1 rfl

/-- C9: the composite names of backup registration are built exactly as
the `;`-joined container and protected-item patterns and the default
policy id path of main.rs lines 588-589 and 622. -/
theorem claimC9 (g n sub vg v : String) :
    container_name g n =
      String.intercalate ";" ["iaasvmcontainer", "iaasvmcontainerv2", g, n] ∧
    protected_item_name g n =
      String.intercalate ";" ["vm", "iaasvmcontainerv2", g, n] ∧
    policy_id sub vg v =
      "/subscriptions/" ++ sub ++ "/resourceGroups/" ++ vg ++
        "/providers/microsoft.recoveryservices/vaults/" ++ v ++
        "/backupPolicies/DefaultPolicy" := by
  refine ⟨?_, ?_, rfl⟩
  · simp only [String.intercalate, String.intercalate.go, container_name,
      String.append_assoc]
    rfl
  · simp only [String.intercalate, String.intercalate.go, protected_item_name,
      String.append_assoc]
    rfl

end AzvmManager

namespace AzvmManager

/-- The last element of a list extended by two elements. -/
theorem getLast?_append_pair {α : Type} (l : List α) (x y : α) :
    (l ++ [x, y]).getLast? = some y := by
  have : l ++ [x, y] = (l ++ [x]) ++ [y] := by simp
  rw [this, List.getLast?_concat]

/-- C1: the LRO poll loop first sleeps for the handle's interval and then
queries; on every non-terminal result (`InProgress` or an absent status)
it sleeps the same fixed interval and queries again; it returns upon the
first terminal result observed, immediately, with no additional sleep
(the trace is a sleep/query pair per result consumed and ends with the
terminal query). -/
theorem claimC1 (interval : Nat) (pre post : List QueryResult) (r : QueryResult)
    (hpre : ∀ x ∈ pre, isTerminalResult x = false)
    (hr : isTerminalResult r = true) :
    (pollLoop interval (pre ++ r :: post)).2 = r ∧
    (pollLoop interval (pre ++ r :: post)).1 =
      (pre ++ [r]).flatMap
        (fun q => [PollEvent.sleep interval, PollEvent.query q]) ∧
    ((pollLoop interval (pre ++ r :: post)).1).getLast? =
      some (PollEvent.query r) := by
  induction pre with
  | nil =>
    refine ⟨?_, ?_, ?_⟩ <;> simp [pollLoop, hr]
  | cons a t ih =>
    have ha : isTerminalResult a = false := hpre a (by simp)
    have ih' := ih (fun x hx => hpre x (by simp [hx]))
    refine ⟨?_, ?_, ?_⟩
    · simpa [pollLoop, ha] using ih'.1
    · simp [pollLoop, ha, ih'.2.1]
    · have h2 : (pollLoop interval ((a :: t) ++ r :: post)).1 =
        ((a :: t) ++ [r]).flatMap
          (fun q => [PollEvent.sleep interval, PollEvent.query q]) := by
        simp [pollLoop, ha, ih'.2.1]
      rw [h2]
      have h3 : ((a :: t) ++ [r]).flatMap
          (fun q => [PollEvent.sleep interval, PollEvent.query q]) =
          ((a :: t).flatMap
            (fun q => [PollEvent.sleep interval, PollEvent.query q])) ++
            [PollEvent.sleep interval, PollEvent.query r] := by
        simp
      rw [h3, getLast?_append_pair]

/-- Witness for C1: interval 2, two non-terminal results
(`InProgress`, absent) before the terminal `Succeeded`; a later `Failed`
is never reached. -/
theorem claimC1_witness :
    (pollLoop 2 [some OpStatus.InProgress, none, some OpStatus.Succeeded,
        some OpStatus.Failed]).2 = some OpStatus.Succeeded ∧
    (pollLoop 2 [some OpStatus.InProgress, none, some OpStatus.Succeeded,
        some OpStatus.Failed]).1 =
      ([some OpStatus.InProgress, none] ++ [some OpStatus.Succeeded]).flatMap
        (fun q => [PollEvent.sleep 2, PollEvent.query q]) ∧
    ((pollLoop 2 [some OpStatus.InProgress, none, some OpStatus.Succeeded,
        some OpStatus.Failed]).1).getLast? =
      some (PollEvent.query (some OpStatus.Succeeded)) :=
  claimC1 2 [some OpStatus.InProgress, none] [some OpStatus.Failed]
    (some OpStatus.Succeeded) (by decide) (by decide)

end AzvmManager

namespace AzvmManager

/-- Removing a name that differs from the head leaves the head in place. -/
theorem removeFirst_cons_of_ne (a x : String) (l : List String) (h : x ≠ a) :
    removeFirst (a :: l) x = a :: removeFirst l x := by
  simp [removeFirst, Ne.symm h]

/-- Erasing a batch of names none of which is `a` leaves `a` in place. -/
theorem removeAll_cons_of_forall_ne (a : String) (xs : List String)
    (h : ∀ x ∈ xs, x ≠ a) :
    ∀ l, removeAll (a :: l) xs = a :: removeAll l xs := by
  induction xs with
  | nil => intro l; rfl
  | cons x xs ih =>
    intro l
    have hxa : x ≠ a := h x (by simp)
    have : removeAll (a :: l) (x :: xs) = removeAll (removeFirst (a :: l) x) xs := rfl
    rw [this, removeFirst_cons_of_ne a x l hxa,
      ih (fun y hy => h y (by simp [hy])) (removeFirst l x)]
    rfl

/-- Erasing, in order, exactly the elements of `l` that satisfy `p` from
`l` leaves exactly the elements that do not satisfy `p`. -/
theorem removeAll_filter (l : List String) (p : String → Bool) :
    removeAll l (l.filter p) = l.filter (fun x => !(p x)) := by
  induction l with
  | nil => rfl
  | cons a t ih =>
    by_cases hp : p a = true
    · rw [List.filter_cons_of_pos hp]
      have h1 : removeAll (a :: t) (a :: t.filter p) =
          removeAll (removeFirst (a :: t) a) (t.filter p) := rfl
      have h2 : removeFirst (a :: t) a = t := by simp [removeFirst]
      rw [h1, h2, ih, List.filter_cons_of_neg (by simp [hp])]
    · have hp' : p a = false := by simpa using hp
      rw [List.filter_cons_of_neg (by simp [hp']),
        removeAll_cons_of_forall_ne a (t.filter p)
          (fun x hx => by
            intro hxa
            subst hxa
            have := List.of_mem_filter hx
            simp [hp'] at this) t,
        ih, List.filter_cons_of_pos (by simp [hp'])]

/-- The two complementary filters of a list partition its length. -/
theorem length_filter_add_length_not (l : List String) (p : String → Bool) :
    (l.filter p).length + (l.filter (fun x => !(p x))).length = l.length := by
  induction l with
  | nil => rfl
  | cons a t ih =>
    by_cases hp : p a = true <;>
      simp [List.filter_cons, hp, ← ih] <;> omega

/-- One convergence round, in closed form: the remaining names are
exactly those not yet done. -/
theorem roundStep_remaining (σ : RoundOracle) (state : String)
    (s : ConvergenceState) :
    (roundStep σ state s).remaining =
      s.remaining.filter (fun n => !(isDone σ state n)) := by
  simp [roundStep, is_complete, removeAll_filter]

/-- One convergence round preserves `completed + |remaining|`. -/
theorem roundStep_invariant (σ : RoundOracle) (state : String)
    (s : ConvergenceState) :
    (roundStep σ state s).completed + (roundStep σ state s).remaining.length =
      s.completed + s.remaining.length := by
  rw [roundStep_remaining]
  show s.completed + (is_complete σ s.remaining state).length + _ = _
  rw [is_complete]
  have := length_filter_add_length_not s.remaining (isDone σ state)
  omega

/-- Any number of convergence rounds preserves `completed + |remaining|`. -/
theorem runRounds_invariant (state : String) (σs : List RoundOracle) :
    ∀ s : ConvergenceState,
      (runRounds state σs s).completed + (runRounds state σs s).remaining.length =
        s.completed + s.remaining.length := by
  induction σs with
  | nil => intro s; rfl
  | cons σ σs ih =>
    intro s
    have h1 : runRounds state (σ :: σs) s = runRounds state σs (roundStep σ state s) := rfl
    rw [h1, ih (roundStep σ state s), roundStep_invariant]

/-- C2: in the batch VM start/stop convergence loop (total fixed at batch
start), after every polling round `completed + |remaining| = total`; one
round leaves exactly the not-yet-done names (a sublist of the previous
remaining — `remaining` only shrinks, never grows), and `completed` grows
by exactly the number of names removed, so no name is counted twice. -/
theorem claimC2 (σ : RoundOracle) (state : String) (s : ConvergenceState)
    (σs : List RoundOracle) (names : List String) :
    (roundStep σ state s).remaining =
      s.remaining.filter (fun n => !(isDone σ state n)) ∧
    (roundStep σ state s).completed + (roundStep σ state s).remaining.length =
      s.completed + s.remaining.length ∧
    (roundStep σ state s).remaining.Sublist s.remaining ∧
    (roundStep σ state s).completed =
      s.completed + (s.remaining.length - (roundStep σ state s).remaining.length) ∧
    (runRounds state σs ⟨0, names⟩).completed +
      (runRounds state σs ⟨0, names⟩).remaining.length = names.length := by
  refine ⟨roundStep_remaining σ state s, roundStep_invariant σ state s, ?_, ?_, ?_⟩
  · rw [roundStep_remaining]
    exact List.filter_sublist _
  · have hinv := roundStep_invariant σ state s
    have hle : (roundStep σ state s).remaining.length ≤ s.remaining.length := by
      rw [roundStep_remaining]
      exact List.Sublist.length_le (List.filter_sublist _)
    omega
  · simpa using runRounds_invariant state σs ⟨0, names⟩

end AzvmManager

namespace AzvmManager

/-- C8: during start/stop convergence a VM is classified as done if and
only if the display status of its first power-state instance-view entry
(entries whose `code` contains `"PowerState"`) contains the target string
as a substring, the target being `"VM running"` for start and
`"VM deallocated"` for stop. -/
theorem claimC8 (σ : RoundOracle) (names : List String) (cmd : VmCommand)
    (n : String) :
    (n ∈ is_complete σ names (targetState cmd) ↔
      n ∈ names ∧ strContains (powerStatus (σ n)) (targetState cmd) = true) ∧
    targetState VmCommand.Start = "VM running" ∧
    targetState VmCommand.Stop = "VM deallocated" ∧
    powerStatus (σ n) =
      (((powerStateEntries (σ n)).map
        (fun st => st.display_status.getD "Unknown")).head?).getD "Unknown" := by
  refine ⟨?_, rfl, rfl, rfl⟩
  simp [is_complete, List.mem_filter, isDone]

/-- A VM instance view with no usable power-state display status: either
no status entry has a code containing `"PowerState"`, or the first such
entry has no display status. -/
def badView (v : VirtualMachineInstanceView) : Bool :=
  match powerStateEntries v with
  | [] => true
  | e :: _ => e.display_status.isNone

/-- A bad instance view yields the substituted status `"Unknown"`. -/
theorem powerStatus_of_badView (v : VirtualMachineInstanceView)
    (h : badView v = true) : powerStatus v = "Unknown" := by
  unfold badView at h
  unfold powerStatus
  cases hpe : powerStateEntries v with
  | nil => simp
  | cons e rest =>
    rw [hpe] at h
    have : e.display_status = none := by
      cases hd : e.display_status <;> simp [hd] at h ⊢
    simp [this]

/-- C10: a VM whose instance view has no power-state entry, or whose
first power-state entry lacks a display status, gets the substituted
status `"Unknown"`; neither `"VM running"` nor `"VM deallocated"` occurs
in `"Unknown"`, so the VM is never classified done and stays in the
remaining set after the round — and after any sequence of rounds in which
its view stays bad. -/
theorem claimC10 (target : String)
    (htarget : target = "VM running" ∨ target = "VM deallocated")
    (n : String) (σ : RoundOracle) (hσ : badView (σ n) = true)
    (s : ConvergenceState) (hn : n ∈ s.remaining)
    (σs : List RoundOracle) (hσs : ∀ τ ∈ σs, badView (τ n) = true) :
    powerStatus (σ n) = "Unknown" ∧
    isDone σ target n = false ∧
    n ∈ (roundStep σ target s).remaining ∧
    n ∈ (runRounds target σs s).remaining := by
  have hnotdone : ∀ τ : RoundOracle, badView (τ n) = true →
      isDone τ target n = false := by
    intro τ hτ
    unfold isDone
    rw [powerStatus_of_badView _ hτ]
    rcases htarget with h | h <;> rw [h] <;> decide
  refine ⟨powerStatus_of_badView _ hσ, hnotdone σ hσ, ?_, ?_⟩
  · rw [roundStep_remaining]
    exact List.mem_filter.mpr ⟨hn, by simp [hnotdone σ hσ]⟩
  · clear hσ
    induction σs generalizing s with
    | nil => exact hn
    | cons τ σs ih =>
      have hτ : badView (τ n) = true := hσs τ (by simp)
      have h1 : runRounds target (τ :: σs) s =
          runRounds target σs (roundStep τ target s) := rfl
      rw [h1]
      refine ih (roundStep τ target s) ?_ (fun τ' hτ' => hσs τ' (by simp [hτ']))
      rw [roundStep_remaining]
      exact List.mem_filter.mpr ⟨hn, by simp [hnotdone τ hτ]⟩

/-- The instance view used by the C10 witness: a single power-state entry
with no display status. -/
def badViewExample : VirtualMachineInstanceView :=
  ⟨[⟨some "PowerState/starting", none⟩]⟩

/-- Witness for C10: a VM whose only power-state entry lacks a display
status reads `"Unknown"`, is not done, and survives a round and a
one-round run. -/
theorem claimC10_witness :
    powerStatus ((fun _ => badViewExample) "vm1") = "Unknown" ∧
    isDone (fun _ => badViewExample) "VM running" "vm1" = false ∧
    "vm1" ∈ (roundStep (fun _ => badViewExample) "VM running"
      ⟨0, ["vm1"]⟩).remaining ∧
    "vm1" ∈ (runRounds "VM running" [fun _ => badViewExample]
      ⟨0, ["vm1"]⟩).remaining :=
  claimC10 "VM running" (Or.inl rfl) "vm1" (fun _ => badViewExample) rfl
    ⟨0, ["vm1"]⟩ (by simp)
    [fun _ => badViewExample]
    (by
      intro τ hτ
      rw [List.mem_singleton] at hτ
      subst hτ
      rfl)

end AzvmManager

namespace AzvmManager

/-- The success-counter predicate of `countSucc`, at one item. -/
theorem countSucc_cons (it : BatchItem) (rest : List BatchItem) :
    countSucc (it :: rest) =
      countSucc rest +
        (if ((itemTerminal it).map statusIsSucceeded).getD false then 1 else 0) := by
  simp [countSucc, List.countP_cons]

/-- Unpacking `goodItem` for an item whose submission returned a
response. -/
theorem goodItem_parts (it : BatchItem) (hs : Headers)
    (hsub : it.submit = SubmitResult.response hs) (hg : goodItem it = true) :
    (∃ u, locate hs = Res.ok u) ∧ (∃ k, retrySecsBatch hs = some k) ∧
    (∃ st, itemTerminal it = some st) := by
  refine ⟨?_, ?_, ?_⟩
  · cases hloc : locate hs with
    | ok u => exact ⟨u, rfl⟩
    | err e' => exfalso; simp [goodItem, hsub, hloc] at hg
  · cases hrs : retrySecsBatch hs with
    | some k => exact ⟨k, rfl⟩
    | none => exfalso; simp [goodItem, hsub, hrs] at hg
  · cases hterm : itemTerminal it with
    | some st => exact ⟨st, rfl⟩
    | none => exfalso; simp [goodItem, hsub, hterm] at hg

/-- Running the batch loop over good items only, from any accumulator
state: every item is recorded, in order, and the success counter counts
the `Succeeded` terminals. -/
theorem runBatchAux_good (items : List BatchItem)
    (h : ∀ it ∈ items, goodItem it = true) :
    ∀ outs count, runBatchAux items outs count =
      BatchOutcome.done (outs ++ items.map outcomeOf) (count + countSucc items) := by
  induction items with
  | nil => intro outs count; simp [runBatchAux, countSucc]
  | cons it rest ih =>
    intro outs count
    have hit := h it (by simp)
    cases hsub : it.submit with
    | transportErr =>
      unfold goodItem at hit
      rw [hsub] at hit
      simp at hit
    | response hs =>
      obtain ⟨⟨u, hloc⟩, ⟨secs, hrs⟩, ⟨st, hterm⟩⟩ := goodItem_parts it hs hsub hit
      have hstep : runBatchAux (it :: rest) outs count =
          runBatchAux rest (outs ++ [⟨it.name, st⟩])
            (if statusIsSucceeded st then count + 1 else count) := by
        simp [runBatchAux, hsub, hloc, hrs, hterm]
      rw [hstep, ih (fun x hx => h x (by simp [hx]))]
      have hout : outcomeOf it = ⟨it.name, st⟩ := by
        simp [outcomeOf, hterm]
      cases hsucc : statusIsSucceeded st <;>
        (simp [countSucc_cons, hout, hterm, hsucc, List.append_assoc]
         try omega)

/-- C3: in the batch registration loop, a terminal status of `Failed`,
`Canceled`, `Invalid` or `Unknown` for one item is recorded and does not
abort the batch; `Succeeded` increments the success counter; every item
whose polling reached a terminal status yields exactly one recorded
outcome, in item order, and the final count is the number of `Succeeded`
items. -/
theorem claimC3 (items : List BatchItem)
    (h : ∀ it ∈ items, goodItem it = true) :
    runBatch items = BatchOutcome.done (items.map outcomeOf) (countSucc items) := by
  have := runBatchAux_good items h [] 0
  simpa [runBatch] using this

/-- The three-item batch of the C3 witness: item 2's poll terminates
`Failed`, items 1 and 3 terminate `Succeeded`. -/
def itemsC3 : List BatchItem :=
  [⟨"vm1", SubmitResult.response [("location", "https://x/ops/1")],
      [some OpStatus.InProgress, some OpStatus.Succeeded]⟩,
   ⟨"vm2", SubmitResult.response [("location", "https://x/ops/2")],
      [some OpStatus.Failed]⟩,
   ⟨"vm3", SubmitResult.response [("location", "https://x/ops/3")],
      [none, some OpStatus.Succeeded]⟩]

/-- Witness for C3 at the spec's 3-item scenario: 3 outcome entries (the
middle one `Failed`) and a success count of 2. -/
theorem claimC3_witness :
    runBatch itemsC3 = BatchOutcome.done (itemsC3.map outcomeOf) (countSucc itemsC3) ∧
    (itemsC3.map outcomeOf).length = 3 ∧
    countSucc itemsC3 = 2 ∧
    itemsC3.map outcomeOf =
      [⟨"vm1", OpStatus.Succeeded⟩, ⟨"vm2", OpStatus.Failed⟩,
       ⟨"vm3", OpStatus.Succeeded⟩] :=
  ⟨claimC3 itemsC3 (by decide), by decide, by decide, by decide⟩

/-- Running the batch loop into an item whose submission fails: the batch
aborts there, keeping only the outcomes already recorded. -/
theorem runBatchAux_abort (pre : List BatchItem)
    (hpre : ∀ it ∈ pre, goodItem it = true)
    (bad : BatchItem) (post : List BatchItem) (e : BatchError)
    (hbad : submitError bad = some e) :
    ∀ outs count, runBatchAux (pre ++ bad :: post) outs count =
      BatchOutcome.aborted (outs ++ pre.map outcomeOf) (count + countSucc pre) e := by
  induction pre with
  | nil =>
    intro outs count
    cases hsub : bad.submit with
    | transportErr =>
      simp [submitError, hsub] at hbad
      subst hbad
      simp [runBatchAux, hsub, countSucc]
    | response hs =>
      cases hloc : locate hs with
      | err e' =>
        simp [submitError, hsub, hloc] at hbad
        subst hbad
        simp [runBatchAux, hsub, hloc, countSucc]
      | ok u => exfalso; simp [submitError, hsub, hloc] at hbad
  | cons it rest ih =>
    intro outs count
    have hit := hpre it (by simp)
    cases hsub : it.submit with
    | transportErr =>
      unfold goodItem at hit
      rw [hsub] at hit
      simp at hit
    | response hs =>
      obtain ⟨⟨u, hloc⟩, ⟨secs, hrs⟩, ⟨st, hterm⟩⟩ := goodItem_parts it hs hsub hit
      have hstep : runBatchAux ((it :: rest) ++ bad :: post) outs count =
          runBatchAux (rest ++ bad :: post) (outs ++ [⟨it.name, st⟩])
            (if statusIsSucceeded st then count + 1 else count) := by
        simp [runBatchAux, hsub, hloc, hrs, hterm]
      rw [hstep, ih (fun x hx => hpre x (by simp [hx]))]
      have hout : outcomeOf it = ⟨it.name, st⟩ := by
        simp [outcomeOf, hterm]
      cases hsucc : statusIsSucceeded st <;>
        (simp [countSucc_cons, hout, hterm, hsucc, List.append_assoc]
         try omega)

/-- C4: if an item's submission itself fails — a transport error, or a
header-extraction/URL-parse error before an operation handle exists —
that failure is not isolated: the batch loop aborts with that error, no
subsequent item is submitted, and outcomes exist only for the items
before the failing one. -/
theorem claimC4 (pre : List BatchItem)
    (hpre : ∀ it ∈ pre, goodItem it = true)
    (bad : BatchItem) (post : List BatchItem) (e : BatchError)
    (hbad : submitError bad = some e) :
    runBatch (pre ++ bad :: post) =
      BatchOutcome.aborted (pre.map outcomeOf) (countSucc pre) e := by
  have := runBatchAux_abort pre hpre bad post e hbad [] 0
  simpa [runBatch] using this

/-- The good leading item of the C4 witness. -/
def goodItemC4 : BatchItem :=
  ⟨"vmA", SubmitResult.response [("location", "https://x/ops/9")],
    [some OpStatus.Succeeded]⟩

/-- The failing item of the C4 witness: its submission response carries
no location-like header. -/
def badItemC4 : BatchItem := ⟨"vmB", SubmitResult.response [], []⟩

/-- The never-reached trailing item of the C4 witness. -/
def tailItemC4 : BatchItem :=
  ⟨"vmC", SubmitResult.response [("location", "https://x/ops/10")],
    [some OpStatus.Succeeded]⟩

/-- Witness for C4: a response with no location-like header aborts the
batch with `MissingLocationHeader` after the first item's outcome, and
the trailing item yields no outcome. -/
theorem claimC4_witness :
    runBatch ([goodItemC4] ++ badItemC4 :: [tailItemC4]) =
      BatchOutcome.aborted ([goodItemC4].map outcomeOf) (countSucc [goodItemC4])
        (BatchError.app AppError.MissingLocationHeader) ∧
    ([goodItemC4].map outcomeOf).length = 1 :=
  ⟨claimC4 [goodItemC4] (by decide) badItemC4 [tailItemC4]
      (BatchError.app AppError.MissingLocationHeader) (by decide),
    by decide⟩

end AzvmManager
